import Mathlib

/-
Verification development for the scriplets repository (Rust, bevy + mlua).

Scalars: the source computes in f32; this embedding uses exact rationals.
Transcendental operations (PI, cos, sin, sqrt) have no exact rational
counterpart, so every definition that needs them is parameterized by an
explicit `Ops` record supplying them; theorems that depend on their
analytic properties take those properties as hypotheses.

Rotations: the source stores orientation as a quaternion but only ever
composes rotations about the z axis (Quat::from_rotation_z), which compose
by adding angles; the embedding therefore stores the accumulated z angle.

The rapier collision probe is an external collaborator; it is modeled as an
oracle function `cast : Vec2 → ℚ → Vec2 → Bool` (shape position, shape
rotation, delta; `true` means the sweep reports a hit, mirroring
`rapier_context.cast_shape(...).is_some()`).  The `max_toi` constant and the
exclude-self / exclude-sensors filter are absorbed into the oracle.
-/

/-- Vec2 models glam::Vec2 restricted to exact rational coordinates. -/
structure Vec2 where
  x : ℚ
  y : ℚ
deriving DecidableEq

instance : Add Vec2 := ⟨fun a b => ⟨a.x + b.x, a.y + b.y⟩⟩

instance : Sub Vec2 := ⟨fun a b => ⟨a.x - b.x, a.y - b.y⟩⟩

instance : Neg Vec2 := ⟨fun a => ⟨-a.x, -a.y⟩⟩

/-- vec2Zero models Vec2::ZERO. -/
def vec2Zero : Vec2 := ⟨0, 0⟩

/-- vsmul is scalar multiplication of a vector (glam `vec * scalar`). -/
def vsmul (c : ℚ) (v : Vec2) : Vec2 := ⟨c * v.x, c * v.y⟩

/-- cmul is complex multiplication of two vectors; glam `a.rotate(b)`
rotates one vector by the angle of the other and equals exactly this
product (it is commutative). -/
def cmul (a b : Vec2) : Vec2 := ⟨a.x * b.x - a.y * b.y, a.x * b.y + a.y * b.x⟩

/-- normSq is the squared euclidean length (glam length_squared). -/
def normSq (v : Vec2) : ℚ := v.x ^ 2 + v.y ^ 2

/-- rclamp models f32::clamp for the cases where the bounds are constants
with lo ≤ hi (Rust: self.max(min).min(max)). -/
def rclamp (v lo hi : ℚ) : ℚ := min (max v lo) hi

/-- f32clamp models f32::clamp including its panic: Rust panics when
min > max, modeled as `none`. -/
def f32clamp (v lo hi : ℚ) : Option ℚ :=
  if lo ≤ hi then some (min (max v lo) hi) else none

/-- vclamp models glam Vec2::clamp, componentwise clamping. -/
def vclamp (v lo hi : Vec2) : Vec2 :=
  ⟨rclamp v.x lo.x hi.x, rclamp v.y lo.y hi.y⟩

/-- MovementType models the enum of the same name (main.rs / prototypes.rs). -/
inductive MovementType where
  | Omnidirectional
  | AcceleratedSteering
  | Train
deriving DecidableEq

/-- asRefStr models the strum AsRefStr derive with kebab-case serialization. -/
def MovementType.asRefStr : MovementType → String
  | .Omnidirectional => "omnidirectional"
  | .AcceleratedSteering => "accelerated-steering"
  | .Train => "train"

/-- Movement models the struct of the same name (prototypes.rs; the copy in
main.rs has the same fields).  Serde attributes are irrelevant here. -/
structure Movement where
  name : String
  movement_type : MovementType
  speed : ℚ
  max_speed : ℚ
  max_speed_backwards : Option ℚ
  acceleration : ℚ
  braking_acceleration : Option ℚ
  passive_deceleration : ℚ
  rotation_speed : ℚ
  rotation_offset : ℚ
  input_move : Vec2
  input_rotation : ℚ
  hand_brake : Bool
deriving DecidableEq

/-- Transform models bevy Transform restricted to what the source uses: a
2D translation (z is always kept at 0 via truncate/extend) and the
accumulated z-axis rotation angle in radians. -/
structure Transform where
  translation : Vec2
  rotation : ℚ
deriving DecidableEq

/-- Ops supplies the f32 transcendental operations the source calls
(std PI constant, cos, sin, sqrt); the embedding is parameterized by them. -/
structure Ops where
  pi : ℚ
  cos : ℚ → ℚ
  sin : ℚ → ℚ
  sqrt : ℚ → ℚ

/-- rightAxis models transform.right().truncate(): the image of the unit x
vector under the accumulated z rotation. -/
def rightAxis (ops : Ops) (t : Transform) : Vec2 :=
  ⟨ops.cos t.rotation, ops.sin t.rotation⟩

/-- upAxis models transform.up().truncate(): the image of the unit y vector
under the accumulated z rotation. -/
def upAxis (ops : Ops) (t : Transform) : Vec2 :=
  ⟨-(ops.sin t.rotation), ops.cos t.rotation⟩

/-- mat2Cols models Mat2::from_cols(c1, c2) * v. -/
def mat2Cols (c1 c2 v : Vec2) : Vec2 := vsmul v.x c1 + vsmul v.y c2

/-- clampLengthMax models glam Vec2::clamp_length_max: if the squared
length exceeds mx * mx the vector is rescaled by mx / sqrt(length_squared),
otherwise returned unchanged. -/
def clampLengthMax (ops : Ops) (v : Vec2) (mx : ℚ) : Vec2 :=
  if mx * mx < normSq v then vsmul (mx / ops.sqrt (normSq v)) v else v

/-- CastFn is the type of the collision probe oracle: arguments are
shape_pos, shape_rot, delta; the result is whether cast_shape returns Some. -/
def CastFn : Type := Vec2 → ℚ → Vec2 → Bool

/-- omniStep models the MovementType::Omnidirectional arm of
handle_movement (main.rs lines 285 to 306) for one unit and one step.
Source order: when the hand brake is not pulled, first apply the rotation
from input_rotation unconditionally, then, when input_move is nonzero,
clamp it to unit length, scale by speed / 60, rotate into world space by
the right and up axes, sweep, commit the translation only on a miss, and
clear input_move in either case. -/
def omniStep (ops : Ops) (cast : CastFn) (m : Movement) (t : Transform) :
    Movement × Transform :=
  if m.hand_brake then (m, t)
  else
    let t1 :=
      if m.input_rotation ≠ 0 then
        { t with rotation := t.rotation +
            (-(m.rotation_speed * rclamp m.input_rotation (-1) 1 * ops.pi) / (180 * 60)) }
      else t
    if m.input_move ≠ vec2Zero then
      let unrotated_move := vsmul (m.speed / 60) (clampLengthMax ops m.input_move 1)
      let delta := mat2Cols (rightAxis ops t1) (upAxis ops t1) unrotated_move
      let t2 :=
        if cast t1.translation t1.rotation delta then t1
        else { t1 with translation := t1.translation + delta }
      ({ m with input_move := vec2Zero }, t2)
    else (m, t1)

/-- accelNewSpeed models the `new_speed` block of the
MovementType::AcceleratedSteering arm (main.rs lines 308 to 335): choose a
signed acceleration from hand brake state and the sign agreement of speed
and clamped input x, integrate speed += accel * input.x / 60, then clamp to
the speed interval with f32::clamp (none models the f32 clamp panic when
the lower bound exceeds the upper bound). -/
def accelNewSpeed (m : Movement) : Option ℚ :=
  let input_move_vec := vclamp m.input_move ⟨-1, -1⟩ ⟨1, 1⟩
  let max_speed := m.max_speed
  let max_speed_backwards := -(m.max_speed_backwards.getD max_speed)
  let acceleration := m.acceleration
  let braking_acceleration := -(m.braking_acceleration.getD acceleration)
  let passive_deceleration := m.passive_deceleration
  let accel :=
    if m.hand_brake then
      if 0 < m.speed then braking_acceleration else -braking_acceleration
    else if (0 < m.speed ∧ 0 < input_move_vec.x) ∨ (m.speed < 0 ∧ input_move_vec.x < 0) then
      acceleration
    else if (0 < m.speed ∧ input_move_vec.x < 0) ∨ (m.speed < 0 ∧ 0 < input_move_vec.x) then
      braking_acceleration
    else if m.speed ≠ 0 then
      -passive_deceleration
    else
      acceleration
  f32clamp (m.speed + accel * input_move_vec.x / 60) max_speed_backwards max_speed

/-- StepResult is the outcome of one integration step for one unit.
ok carries the updated movement and transform; nanPose records that the
source divided linear_delta by a zero turning angle (f32: an infinite
turning_scale propagating to a NaN position), so the committed pose is not
a well defined rational value while the movement record still is; panicked
records the f32::clamp panic. -/
inductive StepResult where
  | ok (m : Movement) (t : Transform)
  | nanPose (m : Movement)
  | panicked
deriving DecidableEq

/-- stepMovement projects the movement record out of a step result. -/
def stepMovement : StepResult → Option Movement
  | .ok m _ => some m
  | .nanPose m => some m
  | .panicked => none

/-- stepPose projects the transform out of a step result. -/
def stepPose : StepResult → Option Transform
  | .ok _ t => some t
  | _ => none

/-- accelStep models the MovementType::AcceleratedSteering arm of
handle_movement (main.rs lines 307 to 364) for one unit and one step.
After the speed update, when the new speed is nonzero the source computes
rot_angle (sign flipped for reverse), the result rotation, divides
linear_delta by rot_angle to obtain turning_scale (division by zero when
rot_angle = 0: modeled as nanPose), builds the turning circle, sweeps the
combined delta from the result position, commits both position and
rotation together only on a miss, and clears input_move regardless. -/
def accelStep (ops : Ops) (cast : CastFn) (m : Movement) (t : Transform) :
    StepResult :=
  match accelNewSpeed m with
  | none => .panicked
  | some new_speed =>
    let input_move_vec := vclamp m.input_move ⟨-1, -1⟩ ⟨1, 1⟩
    let m1 := { m with speed := new_speed }
    if m1.speed ≠ 0 then
      let linear_delta := m1.speed / 60
      let starting_translation := t.translation
      let rot_angle0 := (m1.rotation_speed * ops.pi / (60 * 180)) * input_move_vec.y
      let rot_angle := if m1.speed < 0 then -rot_angle0 else rot_angle0
      let result_rotation := t.rotation + (-rot_angle)
      if rot_angle = 0 then .nanPose { m1 with input_move := vec2Zero }
      else
        let turning_scale := linear_delta / rot_angle
        let rot_vec_normalized := ⟨ops.cos rot_angle, ops.sin rot_angle⟩
        let turning_radius := vsmul turning_scale (rightAxis ops t)
        let turning_origin := starting_translation - turning_radius
        let result_translation := cmul turning_radius rot_vec_normalized + turning_origin
        let delta := result_translation - starting_translation
        let t2 :=
          if cast result_translation result_rotation delta then t
          else { translation := result_translation, rotation := result_rotation }
        .ok { m1 with input_move := vec2Zero } t2
    else .ok m1 t

/-- handle_movement models the per unit body of the handle_movement system
(main.rs lines 283 to 367): dispatch on movement_type; the wildcard arm
(Train) does nothing.  The source loops this body over all units. -/
def handle_movement (ops : Ops) (cast : CastFn) (m : Movement) (t : Transform) :
    StepResult :=
  match m.movement_type with
  | .Omnidirectional =>
    let r := omniStep ops cast m t
    .ok r.1 r.2
  | .AcceleratedSteering => accelStep ops cast m t
  | .Train => .ok m t

/-- UnitHandle models the struct of the same name (program.rs lines 89 to
94): the per tick capability view of one unit, with an optional mutable
movement record, a read only transform, and the two stopwatch clocks
(modeled by their elapsed seconds). -/
structure UnitHandle where
  movement : Option Movement
  transform : Transform
  clock : ℚ
  game_clock : ℚ

/-- LuaResult models mlua::Result for the handle methods. -/
def LuaResult (A : Type) : Type := Except String A

/-- moveMethod models the "move" method (program.rs lines 104 to 109): when
the unit has a movement record, set input_move from the two arguments;
otherwise do nothing; always return Ok. -/
def moveMethod (h : UnitHandle) (args : ℚ × ℚ) : LuaResult UnitHandle :=
  .ok { h with movement :=
    h.movement.map (fun m => { m with input_move := ⟨args.1, args.2⟩ }) }

/-- rotateMethod models the "rotate" method (program.rs lines 110 to 115). -/
def rotateMethod (h : UnitHandle) (rot : ℚ) : LuaResult UnitHandle :=
  .ok { h with movement :=
    h.movement.map (fun m => { m with input_rotation := rot }) }

/-- toggleHandBrakeMethod models the "toggle_hand_brake" method
(program.rs lines 116 to 121). -/
def toggleHandBrakeMethod (h : UnitHandle) : LuaResult UnitHandle :=
  .ok { h with movement :=
    h.movement.map (fun m => { m with hand_brake := !m.hand_brake }) }

/-- MovementSnapshot models the Lua table built by the "movement" field
getter: the keys set on it and their value types. -/
structure MovementSnapshot where
  movement_type : String
  speed : ℚ
  max_speed : ℚ
  max_speed_backwards : Option ℚ
  acceleration : ℚ
  braking_acceleration : ℚ
  passive_deceleration : ℚ
  rotation_speed : ℚ
  is_hand_brake_pulled : Bool
deriving DecidableEq

/-- movementSnapshotOf models the "movement" field getter (program.rs
lines 140 to 165, identical in main.rs lines 160 to 185): Nil when the
unit has no movement record, otherwise a table of the listed fields.
The source line `let braking_acceleration = movement.acceleration;` is
translated exactly as written. -/
def movementSnapshotOf (h : UnitHandle) : Option MovementSnapshot :=
  h.movement.map (fun m =>
    { movement_type := m.movement_type.asRefStr
      speed := m.speed
      max_speed := m.max_speed
      max_speed_backwards := m.max_speed_backwards
      acceleration := m.acceleration
      braking_acceleration := m.acceleration
      passive_deceleration := m.passive_deceleration
      rotation_speed := m.rotation_speed
      is_hand_brake_pulled := m.hand_brake })

/-- LuaSem abstracts the external Lua engine (mlua), which the spec treats
as an off the shelf collaborator: I is the type of interpreter states,
fresh models Lua::new(), exec models lua.load(program).exec(), and
getOnTick models looking the global "on_tick" up as an optional function;
a present function consumes a handle and either returns updated
interpreter state and handle or raises a runtime error. -/
structure LuaSem (I : Type) where
  fresh : I
  exec : I → List Nat → I
  getOnTick : I → Option (UnitHandle → Except String (I × UnitHandle))

/-- UnitProgramState models the enum of the same name (program.rs lines 36
to 39); Lua is its only variant. -/
inductive UnitProgramState (I : Type) where
  | lua (interp : I)

/-- new_lua models UnitProgramState::new_lua. -/
def UnitProgramState.new_lua {I : Type} (sem : LuaSem I) : UnitProgramState I :=
  .lua sem.fresh

/-- new_lua_with_program models UnitProgramState::new_lua_with_program
(program.rs lines 77 to 86): construct a fresh interpreter and exec the
program bytes in it. -/
def UnitProgramState.new_lua_with_program {I : Type} (sem : LuaSem I)
    (program : List Nat) : UnitProgramState I :=
  .lua (sem.exec sem.fresh program)

/-- new_with_program models UnitProgramState::new_with_program (program.rs
lines 71 to 75): dispatch on the variant of self, ignoring its contents. -/
def UnitProgramState.new_with_program {I : Type} (sem : LuaSem I)
    (s : UnitProgramState I) (program : List Nat) : UnitProgramState I :=
  match s with
  | .lua _ => UnitProgramState.new_lua_with_program sem program

/-- reload models UnitProgramState::reload (program.rs lines 57 to 59):
overwrite self with self.new_with_program(program). -/
def UnitProgramState.reload {I : Type} (sem : LuaSem I)
    (s : UnitProgramState I) (program : List Nat) : UnitProgramState I :=
  s.new_with_program sem program

/-- TickResult is the observable outcome of UnitProgramState::tick: either
the updated interpreter state and handle, or a process panic (the source
calls .unwrap() on the scope result, so a script runtime error panics). -/
inductive TickResult (I : Type) where
  | ok (s : UnitProgramState I) (h : UnitHandle)
  | panic

/-- tick models UnitProgramState::tick (program.rs lines 42 to 55): look
on_tick up in the globals; absent means no op; present means call it once
with the handle; an Err from the call is unwrapped, panicking the process. -/
def UnitProgramState.tick {I : Type} (sem : LuaSem I)
    (s : UnitProgramState I) (h : UnitHandle) : TickResult I :=
  match s with
  | .lua interp =>
    match sem.getOnTick interp with
    | none => .ok (.lua interp) h
    | some on_tick_fn =>
      match on_tick_fn h with
      | .ok (interp2, h2) => .ok (.lua interp2) h2
      | .error _ => .panic

/-- unit_tick models the unit_tick system (main.rs lines 370 to 393, same
tick body structure as program.rs): tick every unit in order; a panic in
one tick aborts the whole frame (none), leaving every later unit unticked. -/
def unit_tick {I : Type} (sem : LuaSem I) :
    List (UnitProgramState I × UnitHandle) →
    Option (List (UnitProgramState I × UnitHandle))
  | [] => some []
  | (s, h) :: rest =>
    match s.tick sem h with
    | .ok s2 h2 => (unit_tick sem rest).map (fun tl => (s2, h2) :: tl)
    | .panic => none

/-- hashmap_from_sequence models the function of the same name
(prototypes.rs lines 77 to 84) at the Movement instantiation used by the
Prototypes table: insert each profile of the flat list into the map keyed
by its name (std HashMap from an iterator: later inserts overwrite), and
the resulting map is modeled extensionally as its lookup function, so
applying it to a name models HashMap::get as used by the derived
Prototype::from_pt (scriplets-derive lines 23 to 33). -/
def hashmap_from_sequence (ps : List Movement) : String → Option Movement :=
  ps.foldl (fun acc p => fun k => if k = p.name then some p else acc k)
    (fun _ => none)

/-- opsA is a concrete Ops instantiation for closed evaluations: pi is 1,
cos and sin are the constant functions of a zero angle regime (cos = 1,
sin = 0, satisfying the pythagorean identity), sqrt is the identity (which
over-approximates the square root on arguments above 1). -/
def opsA : Ops := { pi := 1, cos := fun _ => 1, sin := fun _ => 0, sqrt := fun q => q }

/-- castMiss is the collision oracle that never reports a hit. -/
def castMiss : CastFn := fun _ _ _ => false

/-- castHit is the collision oracle that always reports a hit. -/
def castHit : CastFn := fun _ _ _ => true

/-- tZero is the pose at the origin with no rotation. -/
def tZero : Transform := { translation := ⟨0, 0⟩, rotation := 0 }

/-- mBase is a baseline movement record with all constants zero. -/
def mBase : Movement :=
  { name := "base"
    movement_type := .Omnidirectional
    speed := 0
    max_speed := 0
    max_speed_backwards := none
    acceleration := 0
    braking_acceleration := none
    passive_deceleration := 0
    rotation_speed := 0
    rotation_offset := 0
    input_move := ⟨0, 0⟩
    input_rotation := 0
    hand_brake := false }

/-- mC2 is an Omnidirectional unit requesting both a rotation and a move;
with opsA its one step rotation delta is exactly -1 radians. -/
def mC2 : Movement :=
  { mBase with
    speed := 60
    rotation_speed := 10800
    input_move := ⟨1, 0⟩
    input_rotation := 1 }

/-- mC2res is the movement record after one blocked step of mC2. -/
def mC2res : Movement := { mC2 with input_move := vec2Zero }

/-- tC2res is the pose after one blocked step of mC2: translation is kept
but the rotation was applied before the collision sweep. -/
def tC2res : Transform := { tZero with rotation := -1 }

/-- mC3 is an AcceleratedSteering unit moving slowly forward with the hand
brake pulled and a strong braking acceleration. -/
def mC3 : Movement :=
  { mBase with
    movement_type := .AcceleratedSteering
    speed := 1/10
    max_speed := 10
    max_speed_backwards := some 10
    acceleration := 5
    braking_acceleration := some 60
    rotation_speed := 10800
    input_move := ⟨1, 1⟩
    hand_brake := true }

/-- mC3res is the movement record after one step of mC3: the speed
overshoots through zero from 1/10 to -9/10. -/
def mC3res : Movement := { mC3 with speed := -9/10, input_move := vec2Zero }

/-- mC4 is an Omnidirectional unit with the hand brake pulled and both
intent fields set; the integrator leaves it completely unchanged. -/
def mC4 : Movement :=
  { mBase with input_move := ⟨3, 4⟩, input_rotation := 5, hand_brake := true }

/-- mC5 is an AcceleratedSteering unit driving straight (zero steering
input) at a nonzero speed, hitting the division by the zero turning angle. -/
def mC5 : Movement :=
  { mBase with
    movement_type := .AcceleratedSteering
    speed := 60
    max_speed := 60
    acceleration := 1
    rotation_speed := 10800 }

/-- mC5res is the movement record carried by the undefined pose outcome of
one step of mC5. -/
def mC5res : Movement := { mC5 with input_move := vec2Zero }

/-- mC6 is a movement record whose stored braking_acceleration (2) differs
from its stored acceleration (1). -/
def mC6 : Movement :=
  { mBase with acceleration := 1, braking_acceleration := some 2 }

/-- hC6 is a handle over a unit carrying mC6. -/
def hC6 : UnitHandle := { movement := some mC6, transform := tZero, clock := 0, game_clock := 0 }

/-- hNone is a handle over a unit with no movement record. -/
def hNone : UnitHandle := { movement := none, transform := tZero, clock := 0, game_clock := 0 }

/-- semErr is a concrete Lua semantics over interpreter state Bool: state
true holds an on_tick that raises a runtime error, state false holds an
on_tick that returns normally. -/
def semErr : LuaSem Bool :=
  { fresh := false
    exec := fun _ _ => false
    getOnTick := fun b =>
      some (if b then fun _ => Except.error "script runtime error"
            else fun h => Except.ok (false, h)) }

/-- progBad is a loaded program whose on_tick raises a runtime error. -/
def progBad : UnitProgramState Bool := .lua true

/-- progGood is a loaded program whose on_tick returns normally. -/
def progGood : UnitProgramState Bool := .lua false

/-- mW2 is an Omnidirectional unit requesting a pure move with no rotation
request; used to instantiate hypothesis bearing theorems. -/
def mW2 : Movement := { mBase with speed := 60, input_move := ⟨1, 0⟩ }

/-- mW2res is the movement record after one step of mW2. -/
def mW2res : Movement := { mW2 with input_move := vec2Zero }

/-- mW3 is an AcceleratedSteering unit accelerating forward from speed 1
with nonnegative profile constants. -/
def mW3 : Movement :=
  { mBase with
    movement_type := .AcceleratedSteering
    speed := 1
    max_speed := 10
    acceleration := 1
    input_move := ⟨1, 0⟩ }

/-- mW9 is an Omnidirectional unit whose requested move vector has length
2 and must be clamped to unit length. -/
def mW9 : Movement := { mBase with speed := 1, input_move := ⟨2, 0⟩ }

/-- pA is a movement profile named dup with speed 1. -/
def pA : Movement := { mBase with name := "dup", speed := 1 }

/-- pB is a movement profile named dup with speed 2. -/
def pB : Movement := { mBase with name := "dup", speed := 2 }

/-- Claim C1: the claim says a runtime error raised during the entry point
call is reported, ends the tick early for that unit only, and the
simulation continues for the other units.  The source instead unwraps the
scope result (program.rs line 51, main.rs line 389), so the error panics
the whole frame: here the tick of a unit whose on_tick raises an error is
a panic, the frame over [bad, good] aborts with no unit surviving, while
the same frame over [good] alone succeeds. -/
theorem c1_script_error_panics_frame :
    UnitProgramState.tick semErr progBad hNone = TickResult.panic
    ∧ unit_tick semErr [(progBad, hNone), (progGood, hNone)] = none
    ∧ unit_tick semErr [(progGood, hNone)] = some [(progGood, hNone)] :=
  ⟨rfl, rfl, rfl⟩

/-- Claim C2, counterexample: an Omnidirectional unit with a nonzero
rotation request and a move request blocked by the collision probe still
rotates (the rotation is applied before and independently of the sweep),
so the pose after the step is not identical to the pose before, and
input_rotation is not reset. -/
theorem c2_blocked_step_counterexample :
    handle_movement opsA castHit mC2 tZero = StepResult.ok mC2res tC2res
    ∧ tC2res.rotation ≠ tZero.rotation
    ∧ mC2res.input_rotation ≠ 0 := by
  refine ⟨?_, ?_, ?_⟩
  · norm_num [handle_movement, omniStep, opsA, castHit, mC2, mBase, mC2res, tC2res, tZero,
      rclamp, vec2Zero, clampLengthMax, normSq, vsmul, mat2Cols, rightAxis, upAxis]
  · norm_num [tC2res, tZero]
  · norm_num [mC2res, mC2, mBase]

/-- Claim C3, counterexample: an AcceleratedSteering unit with the hand
brake pulled, speed 1/10 and forward input integrates its speed to -9/10
in one step: the post step speed has the opposite sign of the pre step
speed, refuting the no overshoot through zero part of the claim. -/
theorem c3_overshoot_counterexample :
    0 < mC3.speed
    ∧ stepMovement (handle_movement opsA castMiss mC3 tZero) = some mC3res
    ∧ mC3res.speed < 0 := by
  refine ⟨by norm_num [mC3, mBase], ?_, by norm_num [mC3res, mC3, mBase]⟩
  norm_num [handle_movement, accelStep, accelNewSpeed, opsA, castMiss, mC3, mBase, mC3res,
    tZero, rclamp, vclamp, f32clamp, vec2Zero, vsmul, cmul, rightAxis, stepMovement]

/-- Claim C4, counterexample: an Omnidirectional unit with the hand brake
pulled keeps both of its intent fields through the integration step: the
integrator resets neither input_move nor input_rotation in this case. -/
theorem c4_intent_counterexample :
    handle_movement opsA castMiss mC4 tZero = StepResult.ok mC4 tZero
    ∧ mC4.input_move ≠ vec2Zero
    ∧ mC4.input_rotation ≠ 0 := by
  refine ⟨?_, ?_, ?_⟩
  · norm_num [handle_movement, omniStep, mC4, mBase]
  · norm_num [mC4, mBase, vec2Zero]
  · norm_num [mC4, mBase]

/-- Claim C5: the claim says the straight line case (turning angle zero
with nonzero speed) is special cased so that no division by the turning
angle occurs.  The source has no such special case: with zero steering
input and nonzero speed it evaluates turning_scale = linear_delta /
rot_angle with rot_angle = 0 (in f32 an infinite value propagating to a
NaN position), modeled here as the nanPose outcome. -/
theorem c5_zero_turning_angle_divides :
    handle_movement opsA castMiss mC5 tZero = StepResult.nanPose mC5res := by
  norm_num [handle_movement, accelStep, accelNewSpeed, opsA, castMiss, mC5, mBase, mC5res,
    tZero, rclamp, vclamp, f32clamp, vec2Zero, vsmul]

/-- Claim C6: the claim says every reported snapshot field, including
braking_acceleration, equals the corresponding stored field.  The getter
instead assigns the stored acceleration to the braking_acceleration key
(program.rs line 147, main.rs line 167): for a record with acceleration 1
and braking_acceleration 2 the snapshot reports 1.  The nil exactly when
no movement record part does hold. -/
theorem c6_snapshot_braking_mismatch :
    (movementSnapshotOf hC6).map (fun s => s.braking_acceleration) = some mC6.acceleration
    ∧ mC6.acceleration = 1
    ∧ mC6.braking_acceleration = some 2
    ∧ movementSnapshotOf hNone = none := by
  refine ⟨rfl, by norm_num [mC6, mBase], by norm_num [mC6, mBase], rfl⟩

/-- Claim C8: reload replaces the interpreter with one freshly constructed
from the given program bytes: the reloaded state equals the freshly
constructed state, a subsequent tick behaves identically to a tick of the
fresh state, and the result does not depend on the prior interpreter state
at all, so no global state from before the reload survives. -/
theorem c8_reload_is_fresh {I : Type} (sem : LuaSem I) (s : UnitProgramState I)
    (p : List Nat) (h : UnitHandle) :
    UnitProgramState.reload sem s p = UnitProgramState.new_lua_with_program sem p
    ∧ UnitProgramState.tick sem (UnitProgramState.reload sem s p) h
        = UnitProgramState.tick sem (UnitProgramState.new_lua_with_program sem p) h
    ∧ ∀ s2 : UnitProgramState I,
        UnitProgramState.reload sem s p = UnitProgramState.reload sem s2 p := by
  cases s with
  | lua i =>
    refine ⟨rfl, rfl, ?_⟩
    intro s2
    cases s2 with
    | lua j => rfl

/-- Claim C10: on a handle whose unit has no movement record, each of the
three mutator methods returns Ok and leaves the handle unchanged. -/
theorem c10_no_movement_mutators_noop (h : UnitHandle) (args : ℚ × ℚ) (rot : ℚ)
    (hm : h.movement = none) :
    moveMethod h args = Except.ok h
    ∧ rotateMethod h rot = Except.ok h
    ∧ toggleHandBrakeMethod h = Except.ok h := by
  cases h with
  | mk mv tr ck gk =>
    simp only at hm
    subst hm
    simp [moveMethod, rotateMethod, toggleHandBrakeMethod]

/-- Witness for C10 at a concrete handle without movement. -/
theorem c10_no_movement_mutators_noop_witness :
    moveMethod hNone (1, 2) = Except.ok hNone
    ∧ rotateMethod hNone 3 = Except.ok hNone
    ∧ toggleHandBrakeMethod hNone = Except.ok hNone :=
  c10_no_movement_mutators_noop hNone (1, 2) 3 rfl

/-- Helper for C7: inserting one more profile at the end of the list
either overwrites the looked up name or leaves the lookup unchanged. -/
theorem hfs_append (ps : List Movement) (p : Movement) (k : String) :
    hashmap_from_sequence (ps ++ [p]) k
      = if k = p.name then some p else hashmap_from_sequence ps k := by
  simp [hashmap_from_sequence, List.foldl_append]

/-- Helper for C7: a looked up name is absent exactly when no profile of
the list carries it. -/
theorem hfs_none_iff (ps : List Movement) (k : String) :
    hashmap_from_sequence ps k = none ↔ ∀ p ∈ ps, p.name ≠ k := by
  induction ps using List.reverseRecOn with
  | nil => simp [hashmap_from_sequence]
  | append_singleton l a ih =>
    rw [hfs_append]
    split_ifs with h
    · refine iff_of_false (by simp) ?_
      intro hall
      exact hall a (by simp) h.symm
    · rw [ih]
      simp only [List.forall_mem_append, List.forall_mem_singleton]
      have ha : a.name ≠ k := fun hh => h hh.symm
      simp [ha]

/-- Helper for C7: when a profile named k is followed only by profiles
with other names, lookup returns exactly that profile (last wins). -/
theorem hfs_last_wins (l1 : List Movement) (p : Movement) (l2 : List Movement)
    (k : String) (hname : p.name = k) (hl2 : ∀ q ∈ l2, q.name ≠ k) :
    hashmap_from_sequence (l1 ++ p :: l2) k = some p := by
  revert hl2
  induction l2 using List.reverseRecOn with
  | nil =>
    intro _
    rw [hfs_append, if_pos hname.symm]
  | append_singleton l2x q ih =>
    intro hl2
    have hq : q.name ≠ k := hl2 q (by simp)
    have hassoc : l1 ++ p :: (l2x ++ [q]) = (l1 ++ p :: l2x) ++ [q] := by simp
    rw [hassoc, hfs_append, if_neg (fun hk => hq hk.symm)]
    exact ih (fun r hr => hl2 r (by simp [hr]))

/-- Claim C7: for the profile table built from a flat list by
hashmap_from_sequence, lookup returns none exactly when the name is absent
from the list, and when several profiles share a name the last inserted
one wins. -/
theorem c7_lookup_none_iff_absent_and_last_wins (ps : List Movement) (k : String) :
    (hashmap_from_sequence ps k = none ↔ ∀ p ∈ ps, p.name ≠ k)
    ∧ ∀ l1 (p : Movement) l2, ps = l1 ++ p :: l2 → p.name = k →
        (∀ q ∈ l2, q.name ≠ k) → hashmap_from_sequence ps k = some p := by
  refine ⟨hfs_none_iff ps k, ?_⟩
  intro l1 p l2 hps hname hl2
  subst hps
  exact hfs_last_wins l1 p l2 k hname hl2

/-- Witness for C7 at a concrete table with two profiles both named dup:
lookup of dup returns the later profile pB, and lookup of a missing name
returns none. -/
theorem c7_lookup_witness :
    hashmap_from_sequence [pA, pB] "dup" = some pB
    ∧ hashmap_from_sequence [pA, pB] "missing" = none := by
  constructor
  · exact (c7_lookup_none_iff_absent_and_last_wins [pA, pB] "dup").2 [pA] pB [] rfl rfl
      (by intro q hq; cases hq)
  · exact (c7_lookup_none_iff_absent_and_last_wins [pA, pB] "missing").1.mpr
      (by intro p hp
          simp only [List.mem_cons, List.not_mem_nil, or_false] at hp
          rcases hp with rfl | rfl
          · show ¬pA.name = "missing"
            norm_num [pA, mBase]
            decide
          · show ¬pB.name = "missing"
            norm_num [pB, mBase]
            decide)

/-- Claim C2, amended: when every issued collision sweep reports an
obstruction and the step completes normally, the translation is unchanged
by the step; for AcceleratedSteering the rotation is unchanged as well,
while the Omnidirectional rotation from input_rotation is applied before
and independently of the sweep; input_move is reset to neutral
(Omnidirectional: whenever the hand brake is not pulled; Accelerated:
whenever the post update speed is nonzero), but input_rotation is not. -/
theorem c2_blocked_step_keeps_pose (ops : Ops) (cast : CastFn) (m : Movement)
    (t : Transform) (m2 : Movement) (t2 : Transform)
    (hcast : ∀ p r d, cast p r d = true)
    (hok : handle_movement ops cast m t = StepResult.ok m2 t2) :
    t2.translation = t.translation
    ∧ (m.movement_type = MovementType.AcceleratedSteering → t2.rotation = t.rotation)
    ∧ (m.movement_type = MovementType.Omnidirectional → m.hand_brake = false →
        m2.input_move = vec2Zero)
    ∧ (m.movement_type = MovementType.AcceleratedSteering → m2.speed ≠ 0 →
        m2.input_move = vec2Zero) := by
  cases hmt : m.movement_type with
  | Omnidirectional =>
    simp only [handle_movement, hmt] at hok
    injection hok with h1 h2
    subst h1
    subst h2
    simp only [omniStep, hcast, if_true]
    split_ifs with hb hr him <;>
      simp_all [hmt]
  | AcceleratedSteering =>
    simp only [handle_movement, hmt] at hok
    simp only [accelStep, hcast, if_true] at hok
    repeat' split at hok
    all_goals
      first
        | exact StepResult.noConfusion hok
        | (injection hok with h1 h2
           subst h1
           subst h2
           refine ⟨rfl, fun _ => rfl, fun hmt2 => MovementType.noConfusion hmt2,
             fun _ hsp => ?_⟩
           first
             | rfl
             | (exfalso
                simp only [ne_eq] at hsp
                simp_all))
  | Train =>
    simp only [handle_movement, hmt] at hok
    injection hok with h1 h2
    subst h1
    subst h2
    exact ⟨rfl, fun hmt2 => MovementType.noConfusion hmt2,
      fun hmt2 => MovementType.noConfusion hmt2,
      fun hmt2 => MovementType.noConfusion hmt2⟩

/-- Witness for the amended C2 at a concrete Omnidirectional unit whose
move request is blocked by an always obstructing probe. -/
theorem c2_blocked_step_keeps_pose_witness :
    tZero.translation = tZero.translation
    ∧ (mW2.movement_type = MovementType.AcceleratedSteering → tZero.rotation = tZero.rotation)
    ∧ (mW2.movement_type = MovementType.Omnidirectional → mW2.hand_brake = false →
        mW2res.input_move = vec2Zero)
    ∧ (mW2.movement_type = MovementType.AcceleratedSteering → mW2res.speed ≠ 0 →
        mW2res.input_move = vec2Zero) :=
  c2_blocked_step_keeps_pose opsA castHit mW2 tZero mW2res tZero (fun _ _ _ => rfl)
    (by norm_num [handle_movement, omniStep, opsA, castHit, mW2, mBase, mW2res, tZero,
      rclamp, vec2Zero, clampLengthMax, normSq, vsmul, mat2Cols, rightAxis, upAxis])

/-- Claim C4, amended: after one integration step, input_rotation is never
reset by the integrator (it is carried through unchanged on every path),
and input_move is reset to neutral only on the paths that consume it: for
Omnidirectional whenever the hand brake is not pulled (regardless of the
collision outcome), and for AcceleratedSteering whenever the post update
speed is nonzero (regardless of the collision outcome). -/
theorem c4_intent_reset_after_step (ops : Ops) (cast : CastFn) (m : Movement)
    (t : Transform) (m2 : Movement)
    (hm : stepMovement (handle_movement ops cast m t) = some m2) :
    m2.input_rotation = m.input_rotation
    ∧ (m.movement_type = MovementType.Omnidirectional → m.hand_brake = false →
        m2.input_move = vec2Zero)
    ∧ (m.movement_type = MovementType.AcceleratedSteering → m2.speed ≠ 0 →
        m2.input_move = vec2Zero) := by
  cases hmt : m.movement_type with
  | Omnidirectional =>
    simp only [handle_movement, hmt, stepMovement] at hm
    injection hm with h1
    subst h1
    simp only [omniStep]
    split_ifs with hb hr him <;> simp_all [hmt]
  | AcceleratedSteering =>
    simp only [handle_movement, hmt] at hm
    simp only [accelStep] at hm
    repeat' split at hm
    all_goals simp only [stepMovement] at hm
    all_goals
      first
        | exact Option.noConfusion hm
        | (injection hm with h1
           subst h1
           refine ⟨rfl, fun hmt2 => MovementType.noConfusion hmt2, fun _ hsp => ?_⟩
           first
             | rfl
             | (exfalso
                simp only [ne_eq] at hsp
                simp_all))
  | Train =>
    simp only [handle_movement, hmt, stepMovement] at hm
    injection hm with h1
    subst h1
    exact ⟨rfl, fun hmt2 => MovementType.noConfusion hmt2,
      fun hmt2 => MovementType.noConfusion hmt2⟩

/-- Witness for the amended C4 at a concrete Omnidirectional unit. -/
theorem c4_intent_reset_after_step_witness :
    mW2res.input_rotation = mW2.input_rotation
    ∧ (mW2.movement_type = MovementType.Omnidirectional → mW2.hand_brake = false →
        mW2res.input_move = vec2Zero)
    ∧ (mW2.movement_type = MovementType.AcceleratedSteering → mW2res.speed ≠ 0 →
        mW2res.input_move = vec2Zero) :=
  c4_intent_reset_after_step opsA castHit mW2 tZero mW2res
    (by norm_num [handle_movement, omniStep, opsA, castHit, mW2, mBase, mW2res, tZero,
      rclamp, vec2Zero, clampLengthMax, normSq, vsmul, mat2Cols, rightAxis, upAxis,
      stepMovement])

/-- Claim C3, amended: for an AcceleratedSteering unit with the
nonnegative profile constants required by the data model invariant, the
speed stored after one integration step is exactly the clamped integrated
speed and lies within the interval from minus the backward limit to the
forward limit; when the hand brake is not pulled, a nonzero pre step speed
never reaches the opposite strict sign within the step; with the hand
brake pulled the speed can overshoot through zero (see the
counterexample). -/
theorem c3_speed_bounds_no_overshoot (ops : Ops) (cast : CastFn) (m : Movement)
    (t : Transform) (s2 : ℚ)
    (ht : m.movement_type = MovementType.AcceleratedSteering)
    (hms : 0 ≤ m.max_speed)
    (hmsb : 0 ≤ m.max_speed_backwards.getD m.max_speed)
    (hacc : 0 ≤ m.acceleration)
    (hbr : 0 ≤ m.braking_acceleration.getD m.acceleration)
    (hs : accelNewSpeed m = some s2) :
    (stepMovement (handle_movement ops cast m t)).map Movement.speed = some s2
    ∧ -(m.max_speed_backwards.getD m.max_speed) ≤ s2
    ∧ s2 ≤ m.max_speed
    ∧ (m.hand_brake = false →
        (0 < m.speed → 0 ≤ s2) ∧ (m.speed < 0 → s2 ≤ 0)) := by
  have hlo : -(m.max_speed_backwards.getD m.max_speed) ≤ m.max_speed :=
    le_trans (neg_nonpos.mpr hmsb) hms
  have hpart1 : (stepMovement (handle_movement ops cast m t)).map Movement.speed = some s2 := by
    simp only [handle_movement, ht, accelStep, hs]
    repeat' split
    all_goals simp [stepMovement]
  simp only [accelNewSpeed, f32clamp] at hs
  rw [if_pos hlo] at hs
  simp only [Option.some.injEq] at hs
  refine ⟨hpart1, ?_, ?_, ?_⟩
  · rw [← hs]
    exact le_min (le_max_right _ _) hlo
  · rw [← hs]
    exact min_le_right _ _
  · intro hb
    constructor
    · intro hsp
      rw [← hs]
      simp only [hb, Bool.false_eq_true, if_false]
      split_ifs with h1 h2 h3
      · rcases h1 with ⟨_, hx⟩ | ⟨hneg, _⟩
        · have hxa : 0 ≤ m.acceleration *
              (vclamp m.input_move ⟨-1, -1⟩ ⟨1, 1⟩).x / 60 :=
            div_nonneg (mul_nonneg hacc hx.le) (by norm_num)
          exact le_min (le_trans (by linarith) (le_max_left _ _)) hms
        · linarith
      · rcases h2 with ⟨_, hx⟩ | ⟨hneg, _⟩
        · have hxa : 0 ≤ -(m.braking_acceleration.getD m.acceleration) *
              (vclamp m.input_move ⟨-1, -1⟩ ⟨1, 1⟩).x / 60 := by
            apply div_nonneg _ (by norm_num)
            nlinarith
          exact le_min (le_trans (by linarith) (le_max_left _ _)) hms
        · linarith
      · push_neg at h1 h2
        have hx0 : (vclamp m.input_move ⟨-1, -1⟩ ⟨1, 1⟩).x = 0 :=
          le_antisymm (h1.1 hsp) (h2.1 hsp)
        rw [hx0]
        simp only [mul_zero, zero_div, add_zero]
        exact le_min (le_trans hsp.le (le_max_left _ _)) hms
      · exact absurd (ne_of_gt hsp) (by simpa using h3)
    · intro hsn
      rw [← hs]
      simp only [hb, Bool.false_eq_true, if_false]
      split_ifs with h1 h2 h3
      · rcases h1 with ⟨hpos, _⟩ | ⟨_, hx⟩
        · linarith
        · have hxa : m.acceleration *
              (vclamp m.input_move ⟨-1, -1⟩ ⟨1, 1⟩).x / 60 ≤ 0 := by
            apply div_nonpos_of_nonpos_of_nonneg _ (by norm_num)
            nlinarith
          refine le_trans (min_le_left _ _) (max_le (by linarith) (neg_nonpos.mpr hmsb))
      · rcases h2 with ⟨hpos, _⟩ | ⟨_, hx⟩
        · linarith
        · have hxa : -(m.braking_acceleration.getD m.acceleration) *
              (vclamp m.input_move ⟨-1, -1⟩ ⟨1, 1⟩).x / 60 ≤ 0 := by
            apply div_nonpos_of_nonpos_of_nonneg _ (by norm_num)
            nlinarith
          refine le_trans (min_le_left _ _) (max_le (by linarith) (neg_nonpos.mpr hmsb))
      · push_neg at h1 h2
        have hx0 : (vclamp m.input_move ⟨-1, -1⟩ ⟨1, 1⟩).x = 0 :=
          le_antisymm (h2.2 hsn) (h1.2 hsn)
        rw [hx0]
        simp only [mul_zero, zero_div, add_zero]
        refine le_trans (min_le_left _ _) (max_le hsn.le (neg_nonpos.mpr hmsb))
      · exact absurd (ne_of_lt hsn) (by simpa using h3)

/-- Witness for the amended C3 at a concrete AcceleratedSteering unit
accelerating forward: the integrated speed is 61/60. -/
theorem c3_speed_bounds_no_overshoot_witness :
    (stepMovement (handle_movement opsA castMiss mW3 tZero)).map Movement.speed
      = some (61/60)
    ∧ -(mW3.max_speed_backwards.getD mW3.max_speed) ≤ (61:ℚ)/60
    ∧ (61:ℚ)/60 ≤ mW3.max_speed
    ∧ (mW3.hand_brake = false →
        (0 < mW3.speed → (0:ℚ) ≤ 61/60) ∧ (mW3.speed < 0 → (61:ℚ)/60 ≤ 0)) :=
  c3_speed_bounds_no_overshoot opsA castMiss mW3 tZero (61/60) rfl
    (by norm_num [mW3, mBase])
    (by norm_num [mW3, mBase])
    (by norm_num [mW3, mBase])
    (by norm_num [mW3, mBase])
    (by norm_num [accelNewSpeed, f32clamp, vclamp, rclamp, mW3, mBase])

/-- Helper: componentwise description of vector addition. -/
theorem vec2_add_def (a b : Vec2) : a + b = ⟨a.x + b.x, a.y + b.y⟩ := rfl

/-- Helper: componentwise description of vector subtraction. -/
theorem vec2_sub_def (a b : Vec2) : a - b = ⟨a.x - b.x, a.y - b.y⟩ := rfl

/-- Helper: adding a delta and subtracting the base leaves the delta. -/
theorem vec2_add_sub_cancel (a d : Vec2) : (a + d) - a = d := by
  cases a
  cases d
  simp [vec2_add_def, vec2_sub_def]

/-- Helper: the squared norm scales with the square of a scalar factor. -/
theorem normSq_vsmul (c : ℚ) (v : Vec2) : normSq (vsmul c v) = c ^ 2 * normSq v := by
  simp [normSq, vsmul]
  ring

/-- Helper: subtracting a vector from itself gives squared norm zero. -/
theorem normSq_sub_self (a : Vec2) : normSq (a - a) = 0 := by
  simp [vec2_sub_def, normSq]

/-- Helper: under a square root that over-approximates on arguments above
one, clamping to unit length yields a squared norm of at most one. -/
theorem normSq_clampLengthMax_le_one (ops : Ops) (v : Vec2)
    (hsq : ∀ q, 1 < q → q ≤ ops.sqrt q * ops.sqrt q) :
    normSq (clampLengthMax ops v 1) ≤ 1 := by
  unfold clampLengthMax
  split_ifs with h
  · rw [one_mul] at h
    have hle : normSq v ≤ ops.sqrt (normSq v) * ops.sqrt (normSq v) := hsq _ h
    have hpos : 0 < ops.sqrt (normSq v) * ops.sqrt (normSq v) :=
      lt_of_lt_of_le (by linarith) hle
    rw [normSq_vsmul, div_pow, one_pow, pow_two, div_mul_eq_mul_div, one_mul]
    rw [div_le_one hpos]
    exact hle
  · rw [one_mul] at h
    exact not_lt.mp h

/-- Helper: the world frame built from the right and up axes preserves the
squared norm when cos and sin satisfy the pythagorean identity. -/
theorem normSq_rot_frame (ops : Ops) (t1 : Transform) (u : Vec2)
    (hpy : ops.cos t1.rotation ^ 2 + ops.sin t1.rotation ^ 2 = 1) :
    normSq (mat2Cols (rightAxis ops t1) (upAxis ops t1) u) = normSq u := by
  simp only [mat2Cols, rightAxis, upAxis, vsmul, vec2_add_def, normSq]
  linear_combination (u.x ^ 2 + u.y ^ 2) * hpy

/-- Claim C9: for an Omnidirectional unit the integrator is the total
omniStep function, and the squared norm of the translation change of one
step is at most (speed / 60) squared, that is, the committed displacement
magnitude never exceeds speed divided by the tick rate: input_move is
clamped to unit length, scaled by speed / 60, and rotated by a frame that
preserves norms.  Stated over squared norms to stay within exact rational
arithmetic; the hypotheses state the analytic properties of the
parameterized cos, sin and sqrt. -/
theorem c9_omni_displacement_bound (ops : Ops) (cast : CastFn) (m : Movement)
    (t : Transform)
    (ht : m.movement_type = MovementType.Omnidirectional)
    (hsp : 0 ≤ m.speed)
    (hpy : ∀ a, ops.cos a ^ 2 + ops.sin a ^ 2 = 1)
    (hsq : ∀ q, 1 < q → q ≤ ops.sqrt q * ops.sqrt q) :
    handle_movement ops cast m t
      = StepResult.ok (omniStep ops cast m t).1 (omniStep ops cast m t).2
    ∧ normSq ((omniStep ops cast m t).2.translation - t.translation)
        ≤ (m.speed / 60) ^ 2 := by
  constructor
  · simp [handle_movement, ht]
  · have hmain : ∀ t1 : Transform, t1.translation = t.translation →
        normSq ((t1.translation
            + mat2Cols (rightAxis ops t1) (upAxis ops t1)
                (vsmul (m.speed / 60) (clampLengthMax ops m.input_move 1)))
          - t.translation) ≤ (m.speed / 60) ^ 2 := by
      intro t1 h1
      rw [← h1, vec2_add_sub_cancel]
      calc normSq (mat2Cols (rightAxis ops t1) (upAxis ops t1)
              (vsmul (m.speed / 60) (clampLengthMax ops m.input_move 1)))
          = normSq (vsmul (m.speed / 60) (clampLengthMax ops m.input_move 1)) :=
            normSq_rot_frame ops t1 _ (hpy t1.rotation)
        _ = (m.speed / 60) ^ 2 * normSq (clampLengthMax ops m.input_move 1) :=
            normSq_vsmul _ _
        _ ≤ (m.speed / 60) ^ 2 * 1 :=
            mul_le_mul_of_nonneg_left (normSq_clampLengthMax_le_one ops _ hsq)
              (sq_nonneg _)
        _ = (m.speed / 60) ^ 2 := mul_one _
    have hzero : normSq (t.translation - t.translation) ≤ (m.speed / 60) ^ 2 :=
      le_of_eq_of_le (normSq_sub_self t.translation) (sq_nonneg (m.speed / 60))
    simp only [omniStep]
    split_ifs with hb hr him hc <;>
      first
        | exact hzero
        | exact hmain _ rfl

/-- Witness for C9 at a concrete Omnidirectional unit whose requested move
has length 2 and is clamped to unit length before scaling. -/
theorem c9_omni_displacement_bound_witness :
    handle_movement opsA castMiss mW9 tZero
      = StepResult.ok (omniStep opsA castMiss mW9 tZero).1 (omniStep opsA castMiss mW9 tZero).2
    ∧ normSq ((omniStep opsA castMiss mW9 tZero).2.translation - tZero.translation)
        ≤ (mW9.speed / 60) ^ 2 :=
  c9_omni_displacement_bound opsA castMiss mW9 tZero rfl
    (by norm_num [mW9, mBase])
    (fun a => by norm_num [opsA])
    (fun q hq => by simp only [opsA]; nlinarith)
